import Mathlib

/-!
Verification of the live-location WebSocket server (`server.js` /
`redis-service.js`).

The JavaScript source is shallowly embedded: the mutable `Map`s become
association lists with JavaScript `Map` semantics (insertion order kept,
`set` overwrites in place), Redis sorted sets become score-ascending lists,
timestamps (`Date.now()` and parsed date strings) become `Int` millisecond
values, and JavaScript numbers — whose only behaviour the code relies on is
ordering, including the fact that every comparison with `NaN` is false —
become the two-constructor type `JNum`.
-/

set_option maxRecDepth 4096

/-- A JavaScript value of type `number`: either `NaN` or a finite value,
modelled as a rational. (Infinities never arise in the claims; a finite
rational covers every concrete coordinate the protocol carries.) -/
inductive JNum where
  | nan : JNum
  | fin : ℚ → JNum
deriving DecidableEq, Repr

/-- JavaScript `x < c` for a number `x` and a finite literal `c`:
false whenever `x` is `NaN`. -/
def jsLtNum : JNum → ℚ → Bool
  | .nan, _ => false
  | .fin q, c => decide (q < c)

/-- JavaScript `x > c` for a number `x` and a finite literal `c`:
false whenever `x` is `NaN`. -/
def jsGtNum : JNum → ℚ → Bool
  | .nan, _ => false
  | .fin q, c => decide (c < q)

/-- The value found in the `name` field of an incoming message: either an
actual string, or a value of some other runtime type (whose JavaScript
truthiness is recorded, since `!data.name` sees it before `typeof`). -/
inductive JStrVal where
  | str : String → JStrVal
  | nonString : Bool → JStrVal
deriving DecidableEq, Repr

/-- The payload of a `location_update` message.  `none` in `latitude` /
`longitude` means the field is absent or not of runtime type `number`
(`NaN` is of type `number`, hence `some .nan`).  `lastUpdate` is the
epoch-millisecond value of the supplied date, `none` when absent or falsy. -/
structure UpdateData where
  name : Option JStrVal
  latitude : Option JNum
  longitude : Option JNum
  lastUpdate : Option Int
deriving DecidableEq, Repr

/-- The user record the server keeps in its in-memory `users` map and
serialises into the Redis sorted set (fields `name`, `latitude`,
`longitude`, `lastUpdate`). -/
structure UserData where
  name : String
  latitude : JNum
  longitude : JNum
  lastUpdate : Int
deriving DecidableEq, Repr

/-- Error codes the server sends in `error` replies (the subset the claims
mention). -/
inductive ErrCode where
  | INVALID_NAME
  | INVALID_LOCATION
  | STALE_LOCATION
  | RATE_LIMITED
  | USER_LIMIT_EXCEEDED
  | UNAUTHORIZED_DISCONNECT
  | INVALID_DISCONNECT
deriving DecidableEq, Repr

/-- Result of `validateLocationData`: `valid: true`, or `valid: false`
with the error code the server will send. -/
inductive ValidationResult where
  | ok : ValidationResult
  | err : ErrCode → ValidationResult
deriving DecidableEq, Repr

/-! ### JavaScript `Map` semantics on association lists -/

/-- `Map.get`. -/
def mGet {κ α : Type} [DecidableEq κ] : List (κ × α) → κ → Option α
  | [], _ => none
  | (k', v') :: t, k => if k' = k then some v' else mGet t k

/-- `Map.get` with a default. -/
def mGetD {κ α : Type} [DecidableEq κ] (l : List (κ × α)) (k : κ) (d : α) : α :=
  (mGet l k).getD d

/-- `Map.has`. -/
def mHas {κ α : Type} [DecidableEq κ] (l : List (κ × α)) (k : κ) : Bool :=
  (mGet l k).isSome

/-- `Map.set`: overwrite in place if the key exists, else append. -/
def mSet {κ α : Type} [DecidableEq κ] (l : List (κ × α)) (k : κ) (v : α) :
    List (κ × α) :=
  match l with
  | [] => [(k, v)]
  | (k', v') :: t => if k' = k then (k, v) :: t else (k', v') :: mSet t k v

/-- `Map.delete`. -/
def mDel {κ α : Type} [DecidableEq κ] (l : List (κ × α)) (k : κ) :
    List (κ × α) :=
  l.filter (fun p => decide (p.1 ≠ k))

/-! ### The Redis store (`redis-service.js`)

A user's location key holds a sorted set, modelled as a list of
`(score, member)` pairs kept in ascending score order; `score` is the
`Date.now()` value at store time.  The user metadata key holds the hash
written by `hSet` (`name`, `lastUpdate`).  Key TTLs (`expire`) only cause
time-based expiry, which no claim observes, so they are not tracked. -/

/-- Metadata hash stored at `location_share:user:<username>`. -/
structure RedisMeta where
  name : String
  lastUpdate : Int
deriving DecidableEq, Repr

/-- The state of the Redis service: the connection flag and the contents of
the per-user sorted sets and metadata hashes. -/
structure RedisState where
  isConnected : Bool
  locations : List (String × List (Int × UserData))
  userMeta : List (String × RedisMeta)
deriving DecidableEq, Repr

/-- Insert a scored member into an ascending list, after all entries of
smaller or equal score.  (Redis breaks score ties by member lexicographic
order; no claim exercises a tie, so insertion order stands in for it.) -/
def zInsert (l : List (Int × UserData)) (s : Int) (v : UserData) :
    List (Int × UserData) :=
  match l with
  | [] => [(s, v)]
  | (s', v') :: t =>
      if s' ≤ s then (s', v') :: zInsert t s v else (s, v) :: (s', v') :: t

/-- `ZADD key score member`: if the member is already present its score is
updated (the member moves to the position of its new score), otherwise the
member is inserted at its score. -/
def zAdd (l : List (Int × UserData)) (s : Int) (v : UserData) :
    List (Int × UserData) :=
  zInsert (l.filter (fun p => decide (p.2 ≠ v))) s v

/-- `ZREMRANGEBYRANK key 0 (-n-1)`: removes every rank below the last `n`,
i.e. keeps the `n` entries of greatest score. -/
def trimToNewest (n : Nat) (l : List (Int × UserData)) :
    List (Int × UserData) :=
  l.drop (l.length - n)

/-- Resolve a rank argument of `ZRANGE`: negative ranks count from the end. -/
def rankIndex (n : Nat) (i : Int) : Int :=
  if i < 0 then (n : Int) + i else i

/-- The rank window `[start, stop]` of a list, with `ZRANGE` index
semantics: negative indexes count from the end, out-of-range indexes are
clamped, and an empty window yields `[]`. -/
def sliceByRank {α : Type} (l : List α) (start stop : Int) : List α :=
  let n := l.length
  let s := max 0 (rankIndex n start)
  let e := min ((n : Int) - 1) (rankIndex n stop)
  if s ≤ e then (l.drop s.toNat).take (e - s + 1).toNat else []

/-- `ZRANGE key start stop REV`: the set is traversed from highest to
lowest score and the rank window indexes into that reversed traversal. -/
def zrangeRev (l : List (Int × UserData)) (start stop : Int) :
    List (Int × UserData) :=
  sliceByRank l.reverse start stop

/-- `storeUserLocation` (redis-service.js:84).  When disconnected it is a
no-op returning soft failure.  Otherwise: `zAdd` the serialised record with
`Date.now()` as score, trim to the newest `maxLocationEntries` (100),
refresh the key TTLs (untracked), and `hSet` the user metadata. -/
def storeUserLocation (rd : RedisState) (username : String)
    (locationData : UserData) (now : Int) : RedisState :=
  if rd.isConnected = false then rd
  else
    { rd with
      locations := mSet rd.locations username
        (trimToNewest 100 (zAdd (mGetD rd.locations username []) now locationData)),
      userMeta := mSet rd.userMeta username
        { name := locationData.name, lastUpdate := locationData.lastUpdate } }

/-- `getLatestUserLocation` (redis-service.js:133).  When disconnected it
returns `null`.  Otherwise it issues `ZRANGE key -1 -1 REV` — under `REV`
rank `-1` is the entry of lowest score — and, if that window is nonempty,
spreads the stored user-metadata hash over the record (`hGetAll` of a
missing key is the empty hash, which overrides nothing). -/
def getLatestUserLocation (rd : RedisState) (username : String) :
    Option UserData :=
  if rd.isConnected = false then none
  else
    match (zrangeRev (mGetD rd.locations username []) (-1) (-1)).head? with
    | none => none
    | some (_, e) =>
        match mGet rd.userMeta username with
        | none => some e
        | some m => some { e with name := m.name, lastUpdate := m.lastUpdate }

/-- `getUserLocationHistory` (redis-service.js:166).  When disconnected it
returns `[]`.  Otherwise it calls `zRange(key, 0, -1, options)` with
`REV: true`; when both bounds are truthy (JavaScript's
`if (startTime && endTime)`) the source additionally sets the option keys
`BYSCORE`, `MIN` and `MAX`, but the node-redis v4 `zRange` options
interface recognizes only `BY`, `REV` and `LIMIT`, so those keys are
silently ignored and the command issued is `ZRANGE key 0 -1 REV` in both
branches: every retained entry, newest first, never filtered by the time
range. -/
def getUserLocationHistory (rd : RedisState) (username : String)
    (_startTime _endTime : Option Int) : List UserData :=
  if rd.isConnected = false then []
  else (zrangeRev (mGetD rd.locations username []) 0 (-1)).map (·.2)

/-- `getAllUsersWithLocations` (redis-service.js:198).  When disconnected
it returns `[]`.  Otherwise it enumerates the location keys and collects
`getLatestUserLocation` of each username, skipping `null` results. -/
def getAllUsersWithLocations (rd : RedisState) : List UserData :=
  if rd.isConnected = false then []
  else (rd.locations.map (·.1)).filterMap (getLatestUserLocation rd)

/-! ### The server (`server.js`) -/

/-- The server's mutable state: the three process-global maps and, for each
live connection (identified by a `Nat`), the `ws.username` property once it
has been assigned. -/
structure ServerState where
  users : List (String × UserData)
  connections : List (String × Nat)
  rateLimit : List (String × Int)
  wsUser : List (Nat × String)
deriving DecidableEq, Repr

/-- The state of a freshly started server. -/
def emptyServer : ServerState :=
  { users := [], connections := [], rateLimit := [], wsUser := [] }

/-- `validateLocationData` (server.js:242): the cascade of checks, first
failure winning.  `!data.name` is true for a missing, falsy non-string, or
empty-string name; `typeof data.name !== 'string'` catches the remaining
non-strings; both produce `INVALID_NAME`, as does a length above
`maxNameLength` (50).  The latitude/longitude checks are
`typeof v !== 'number' || v < lo || v > hi` with JavaScript comparisons
(false on `NaN`).  A truthy `lastUpdate` older than `userTimeout`
(30000 ms) is `STALE_LOCATION`. -/
def validateLocationData (data : UpdateData) (now : Int) : ValidationResult :=
  match data.name with
  | none => .err .INVALID_NAME
  | some (.nonString _) => .err .INVALID_NAME
  | some (.str s) =>
    if s.length = 0 ∨ 50 < s.length then .err .INVALID_NAME
    else match data.latitude with
    | none => .err .INVALID_LOCATION
    | some la =>
      if jsLtNum la (-90) || jsGtNum la 90 then .err .INVALID_LOCATION
      else match data.longitude with
      | none => .err .INVALID_LOCATION
      | some lo =>
        if jsLtNum lo (-180) || jsGtNum lo 180 then .err .INVALID_LOCATION
        else match data.lastUpdate with
        | none => .ok
        | some t => if 30000 < now - t then .err .STALE_LOCATION else .ok

/-- `isRateLimited` (server.js:292): no recorded last update always allows;
otherwise limited exactly when strictly less than
`locationUpdateInterval` (2000 ms) has elapsed. -/
def isRateLimited (st : ServerState) (username : String) (now : Int) : Bool :=
  match mGet st.rateLimit username with
  | none => false
  | some lastUpdate => decide (now - lastUpdate < 2000)

/-- Outcome of `handleLocationUpdate`: an `error` reply with a code, or
acceptance carrying the stored record and the list of
`(username, connection)` pairs the `user_location` broadcast goes to. -/
inductive UpdateOutcome where
  | rejected : ErrCode → UpdateOutcome
  | accepted : UserData → List (String × Nat) → UpdateOutcome
deriving DecidableEq, Repr

/-- `handleLocationUpdate` (server.js:159): validate, rate-limit, check the
user limit (`!users.has(name) && users.size >= maxUsers`); then record the
acceptance time, overwrite the `users`, `connections` and `ws.username`
bindings, store to Redis (its soft failure is ignored), and broadcast to
every connection whose username differs from the sender's.  The final
match arm is unreachable: validation succeeding guarantees the three
fields have the matched shape. -/
def handleLocationUpdate (st : ServerState) (rd : RedisState) (cid : Nat)
    (data : UpdateData) (now : Int) :
    ServerState × RedisState × UpdateOutcome :=
  match validateLocationData data now with
  | .err c => (st, rd, .rejected c)
  | .ok =>
    match data.name, data.latitude, data.longitude with
    | some (.str nm), some la, some lo =>
      if isRateLimited st nm now then (st, rd, .rejected .RATE_LIMITED)
      else if ¬ mHas st.users nm ∧ 100 ≤ st.users.length then
        (st, rd, .rejected .USER_LIMIT_EXCEEDED)
      else
        let userData : UserData :=
          { name := nm, latitude := la, longitude := lo,
            lastUpdate := data.lastUpdate.getD now }
        let st' : ServerState :=
          { users := mSet st.users nm userData,
            connections := mSet st.connections nm cid,
            rateLimit := mSet st.rateLimit nm now,
            wsUser := mSet st.wsUser cid nm }
        let rd' := storeUserLocation rd nm userData now
        (st', rd',
          .accepted userData (st'.connections.filter (fun p => decide (p.1 ≠ nm))))
    | _, _, _ => (st, rd, .rejected .INVALID_NAME)

/-- Outcome of `handleUserDisconnectRequest`: an `error` reply, or removal
of the user followed by closing the connection. -/
inductive DisconnectOutcome where
  | rejected : ErrCode → DisconnectOutcome
  | closed : DisconnectOutcome
deriving DecidableEq, Repr

/-- `handleUserDisconnect` (server.js:219): if the username is present in
the `users` map, delete it from `users`, `connections` and the rate-limit
map (Redis is deliberately left untouched); otherwise do nothing. -/
def handleUserDisconnect (st : ServerState) (username : String) :
    ServerState :=
  if mHas st.users username then
    { st with
      users := mDel st.users username,
      connections := mDel st.connections username,
      rateLimit := mDel st.rateLimit username }
  else st

/-- `handleUserDisconnectRequest` (server.js:206): a falsy `name` (absent
or empty string) is `INVALID_DISCONNECT`; a name equal to the connection's
own `ws.username` disconnects and closes; anything else is
`UNAUTHORIZED_DISCONNECT`. -/
def handleUserDisconnectRequest (st : ServerState) (cid : Nat)
    (name : Option String) : ServerState × DisconnectOutcome :=
  match name with
  | none => (st, .rejected .INVALID_DISCONNECT)
  | some n =>
    if n = "" then (st, .rejected .INVALID_DISCONNECT)
    else if mGet st.wsUser cid = some n then
      (handleUserDisconnect st n, .closed)
    else (st, .rejected .UNAUTHORIZED_DISCONNECT)

/-- The reply `sendUsersList` produces: a `users_list` message (each record
with its `connected` flag) or an `error` message. -/
inductive UsersReply where
  | usersList : List (UserData × Bool) → UsersReply
  | errorReply : ErrCode → UsersReply
deriving DecidableEq, Repr

/-- `sendUsersList` (server.js:299): fetch every stored user from Redis
(`[]` when the store is unreachable — the service catches internally and
never throws, so the in-memory `catch` fallback in the source is dead
code), then flag each fetched record as connected when some in-memory user
record carries the same name.  In-memory users absent from the fetched
list are not added. -/
def sendUsersList (st : ServerState) (rd : RedisState) : UsersReply :=
  let allUsers := getAllUsersWithLocations rd
  let connectedUsernames := st.users.map (fun p => p.2.name)
  .usersList (allUsers.map (fun u => (u, connectedUsernames.contains u.name)))

/-- `loadUsersFromRedis` (server.js:54): on startup, every stored user is
inserted into the in-memory `users` map keyed by its `name` field — without
any entry in `connections`. -/
def loadUsersFromRedis (st : ServerState) (rd : RedisState) : ServerState :=
  { st with
    users := (getAllUsersWithLocations rd).foldl
      (fun m u => mSet m u.name u) st.users }

/-- The `connectedUsers` field of the `/health` reply (server.js:115):
the size of the in-memory `users` map. -/
def healthConnectedUsers (st : ServerState) : Nat :=
  st.users.length

/-- The number of usernames actually bound to a live connection (the
ground truth the spec calls "distinct connected usernames"). -/
def connectedUsernameCount (st : ServerState) : Nat :=
  (st.connections.map (·.1)).eraseDups.length

/-! ### Concrete fixtures used by the theorems below -/

/-- A Redis service that connected successfully and holds no data yet. -/
def rdInit : RedisState := { isConnected := true, locations := [], userMeta := [] }

/-- A Redis service whose store is unreachable. -/
def rdDown : RedisState := { isConnected := false, locations := [], userMeta := [] }

/-- A simple stored record. -/
def mkU (nm : String) (q : ℚ) (t : Int) : UserData :=
  { name := nm, latitude := .fin q, longitude := .fin q, lastUpdate := t }

/-- A valid update from "alice". -/
def dAlice : UpdateData :=
  { name := some (.str "alice"), latitude := some (.fin 1),
    longitude := some (.fin 2), lastUpdate := none }

/-- A valid update from "bob". -/
def dBob : UpdateData :=
  { name := some (.str "bob"), latitude := some (.fin 3),
    longitude := some (.fin 4), lastUpdate := none }

/-- A valid update from a username not seen before. -/
def dNew : UpdateData :=
  { name := some (.str "newuser"), latitude := some (.fin 1),
    longitude := some (.fin 1), lastUpdate := none }

/-- An update whose latitude is the number `NaN`. -/
def dNaN : UpdateData :=
  { name := some (.str "alice"), latitude := some .nan,
    longitude := some (.fin 0), lastUpdate := none }

/-- Server state after "alice" on connection 1 had her update accepted at
`t = 0` with the store down. -/
def stAlice : ServerState := (handleLocationUpdate emptyServer rdDown 1 dAlice 0).1

/-- Server state after "bob" on connection 2 additionally had his update
accepted at `t = 1000` with the store down. -/
def stBoth : ServerState := (handleLocationUpdate stAlice rdDown 2 dBob 1000).1

/-- A connected store holding one record for "alice" stored at `t = 20`. -/
def rd3 : RedisState :=
  { isConnected := true, locations := [("alice", [(20, mkU "alice" 5 20)])],
    userMeta := [] }

/-- A connected store after two appends for "alice" at `t = 1` and `t = 2`. -/
def rdTwice : RedisState :=
  storeUserLocation (storeUserLocation rdInit "alice" (mkU "alice" 1 1) 1)
    "alice" (mkU "alice" 2 2) 2

/-- A connected store holding one record for each of 100 usernames. -/
def rd100 : RedisState :=
  { isConnected := true,
    locations := (List.range 100).map
      (fun i => ("u" ++ toString i, [((0 : Int), mkU ("u" ++ toString i) 0 0)])),
    userMeta := [] }

/-- Server state after startup loaded those 100 stored users: the `users`
map holds them, the `connections` map is empty. -/
def st100 : ServerState := loadUsersFromRedis emptyServer rd100

/-- The store after 150 appends for username "u" at `t = 0, 1, ..., 149`. -/
def rd150 : RedisState :=
  (List.range 150).foldl
    (fun rd i => storeUserLocation rd "u" (mkU "u" 0 (i : Int)) (i : Int)) rdInit

/-! ### Map lemmas -/

theorem mGet_mSet_self {κ α : Type} [DecidableEq κ] (l : List (κ × α))
    (k : κ) (v : α) : mGet (mSet l k v) k = some v := by
  induction l with
  | nil => simp [mGet, mSet]
  | cons h t ih =>
    obtain ⟨k', v'⟩ := h
    by_cases hk : k' = k
    · subst hk; simp [mSet, mGet]
    · simp [mSet, hk, mGet, ih]

theorem mHas_mSet {κ α : Type} [DecidableEq κ] (l : List (κ × α))
    (k k' : κ) (v : α) (h : mHas l k = true) :
    mHas (mSet l k' v) k = true := by
  induction l with
  | nil => simp [mHas, mGet] at h
  | cons hd t ih =>
    obtain ⟨k₀, v₀⟩ := hd
    by_cases he : k₀ = k'
    · subst he
      by_cases hkk : k₀ = k
      · subst hkk; simp [mSet, mHas, mGet]
      · simp [mSet, mHas, mGet, hkk] at h ⊢
        exact h
    · by_cases hkk : k₀ = k
      · subst hkk; simp [mSet, he, mHas, mGet]
      · simp [mSet, he, mHas, mGet, hkk] at h ⊢
        exact ih h

/-! ### Sorted-set lemmas -/

theorem mem_zInsert (l : List (Int × UserData)) (s : Int) (v : UserData)
    (x : Int × UserData) : x ∈ zInsert l s v ↔ x = (s, v) ∨ x ∈ l := by
  induction l with
  | nil => simp [zInsert]
  | cons h t ih =>
    obtain ⟨s', v'⟩ := h
    by_cases hs : s' ≤ s
    · simp only [zInsert, if_pos hs, List.mem_cons, ih]
      tauto
    · simp only [zInsert, if_neg hs, List.mem_cons]

theorem pairwise_zInsert {l : List (Int × UserData)} (s : Int) (v : UserData)
    (h : List.Pairwise (fun a b => a.1 ≤ b.1) l) :
    List.Pairwise (fun a b => a.1 ≤ b.1) (zInsert l s v) := by
  induction l with
  | nil => simp [zInsert]
  | cons hd t ih =>
    obtain ⟨s', v'⟩ := hd
    rw [List.pairwise_cons] at h
    obtain ⟨hrel, hp⟩ := h
    by_cases hs : s' ≤ s
    · simp only [zInsert, if_pos hs]
      rw [List.pairwise_cons]
      refine ⟨?_, ih hp⟩
      intro x hx
      rcases (mem_zInsert t s v x).1 hx with rfl | hxt
      · exact hs
      · exact hrel x hxt
    · push_neg at hs
      simp only [zInsert, if_neg (not_le.2 hs)]
      rw [List.pairwise_cons]
      refine ⟨?_, List.pairwise_cons.2 ⟨hrel, hp⟩⟩
      intro x hx
      rcases List.mem_cons.1 hx with rfl | hxt
      · exact le_of_lt hs
      · exact le_trans (le_of_lt hs) (hrel x hxt)

theorem pairwise_zAdd {l : List (Int × UserData)} (s : Int) (v : UserData)
    (h : List.Pairwise (fun a b => a.1 ≤ b.1) l) :
    List.Pairwise (fun a b => a.1 ≤ b.1) (zAdd l s v) :=
  pairwise_zInsert s v (h.filter _)

theorem trimToNewest_length (n : Nat) (l : List (Int × UserData)) :
    (trimToNewest n l).length ≤ n := by
  simp only [trimToNewest, List.length_drop]
  omega

theorem trimToNewest_keeps_greatest (n : Nat) {l : List (Int × UserData)}
    (h : List.Pairwise (fun a b => a.1 ≤ b.1) l) :
    ∀ x ∈ l, x ∉ trimToNewest n l → ∀ y ∈ trimToNewest n l, x.1 ≤ y.1 := by
  intro x hx hnx y hy
  have hx' : x ∈ l.take (l.length - n) := by
    have hsplit := List.take_append_drop (l.length - n) l
    rcases List.mem_append.1 (by rw [hsplit]; exact hx) with h1 | h2
    · exact h1
    · exact absurd h2 hnx
  exact h.rel_of_mem_take_of_mem_drop hx' hy

theorem zrangeRev_full (l : List (Int × UserData)) :
    zrangeRev l 0 (-1) = l.reverse := by
  unfold zrangeRev sliceByRank rankIndex
  simp only [List.length_reverse]
  rcases Nat.eq_zero_or_pos l.length with h0 | hpos
  · rw [List.length_eq_zero] at h0
    subst h0
    simp
  · have h1 : (0 : Int) ≤ (l.length : Int) - 1 := by omega
    have hmax : max (0 : Int) (if (0 : Int) < 0 then (l.length : Int) + 0 else 0) = 0 := by
      norm_num
    have hmin : min ((l.length : Int) - 1)
        (if (-1 : Int) < 0 then (l.length : Int) + -1 else -1) = (l.length : Int) - 1 := by
      norm_num
    rw [hmax, hmin, if_pos h1]
    have h2 : ((l.length : Int) - 1 - 0 + 1).toNat = l.length := by omega
    have h3 : ((0 : Int)).toNat = 0 := rfl
    rw [h2, h3, List.drop_zero, List.take_of_length_le (by simp)]

/-! ### Validator characterisation (claim C7) -/

/-- The spec's first rule: the username is missing, not a string, empty,
or longer than 50 characters. -/
def nameBadSpec (d : UpdateData) : Bool :=
  match d.name with
  | none => true
  | some (.nonString _) => true
  | some (.str s) => decide (s.length = 0 ∨ 50 < s.length)

/-- The spec's second rule: the latitude is not numeric or lies outside
`[-90, 90]` (under JavaScript comparisons, so `NaN` is not outside). -/
def latBadSpec (d : UpdateData) : Bool :=
  match d.latitude with
  | none => true
  | some la => jsLtNum la (-90) || jsGtNum la 90

/-- The spec's third rule: the longitude is not numeric or lies outside
`[-180, 180]`. -/
def lonBadSpec (d : UpdateData) : Bool :=
  match d.longitude with
  | none => true
  | some lo => jsLtNum lo (-180) || jsGtNum lo 180

/-- The spec's fourth rule: a supplied `lastUpdate` more than 30 seconds
older than `now`. -/
def staleBadSpec (d : UpdateData) (now : Int) : Bool :=
  match d.lastUpdate with
  | none => false
  | some t => decide (30000 < now - t)

/-- C7: validation applies the four rules in order with the first failure
winning: `INVALID_NAME` exactly on a bad username; `INVALID_LOCATION`
exactly when the username is fine and the latitude is bad, or the latitude
is fine and the longitude is bad; `STALE_LOCATION` exactly when the three
field rules pass and the update is stale; `valid` exactly when every rule
passes; and in particular a finite latitude outside `[-90, 90]` with a
good username is always rejected `INVALID_LOCATION`. -/
theorem validateLocationData_spec (d : UpdateData) (now : Int) :
    (validateLocationData d now = .err .INVALID_NAME ↔ nameBadSpec d = true) ∧
    (validateLocationData d now = .err .INVALID_LOCATION ↔
      nameBadSpec d = false ∧
        (latBadSpec d = true ∨ (latBadSpec d = false ∧ lonBadSpec d = true))) ∧
    (validateLocationData d now = .err .STALE_LOCATION ↔
      nameBadSpec d = false ∧ latBadSpec d = false ∧ lonBadSpec d = false ∧
        staleBadSpec d now = true) ∧
    (validateLocationData d now = .ok ↔
      nameBadSpec d = false ∧ latBadSpec d = false ∧ lonBadSpec d = false ∧
        staleBadSpec d now = false) ∧
    (∀ q : ℚ, d.latitude = some (.fin q) → (q < -90 ∨ 90 < q) →
      nameBadSpec d = false → validateLocationData d now = .err .INVALID_LOCATION) := by
  obtain ⟨nm, la, lo, lu⟩ := d
  rcases nm with _ | v
  · simp [validateLocationData, nameBadSpec]
  rcases v with s | b
  case nonString =>
    simp [validateLocationData, nameBadSpec]
  by_cases hname : s.length = 0 ∨ 50 < s.length
  · simp [validateLocationData, nameBadSpec, if_pos hname, hname]
  simp only [validateLocationData, nameBadSpec, if_neg hname, decide_eq_true_eq,
    decide_eq_false_iff_not]
  rcases la with _ | lv
  · simp [latBadSpec, hname]
  by_cases hlat : (jsLtNum lv (-90) || jsGtNum lv 90) = true
  · refine ⟨?_, ?_, ?_, ?_, ?_⟩ <;>
      simp [latBadSpec, hlat, hname]
  rcases lo with _ | lov
  · simp [latBadSpec, lonBadSpec, hlat, hname]
  by_cases hlon : (jsLtNum lov (-180) || jsGtNum lov 180) = true
  · simp [latBadSpec, lonBadSpec, hlat, hlon, hname]
  rcases lu with _ | t
  · simp [latBadSpec, lonBadSpec, staleBadSpec, hlat, hlon, hname]
    intro q hq
    subst hq
    simpa [jsLtNum, jsGtNum, not_or] using hlat
  by_cases hstale : 30000 < now - t
  · simp [latBadSpec, lonBadSpec, staleBadSpec, hlat, hlon, hstale, hname]
    intro q hq
    subst hq
    simpa [jsLtNum, jsGtNum, not_or] using hlat
  · simp [latBadSpec, lonBadSpec, staleBadSpec, hlat, hlon, hstale, hname]
    intro q hq
    subst hq
    simpa [jsLtNum, jsGtNum, not_or] using hlat

/-- An update whose latitude (91) lies outside `[-90, 90]` and whose other
fields are valid. -/
def dOut : UpdateData :=
  { name := some (.str "alice"), latitude := some (.fin 91),
    longitude := some (.fin 0), lastUpdate := none }

/-- Witness for C7: a latitude of 91 with a valid username is rejected
`INVALID_LOCATION`. -/
theorem validateLocationData_spec_w :
    validateLocationData dOut 0 = .err .INVALID_LOCATION :=
  (validateLocationData_spec dOut 0).2.2.2.2 91 rfl (Or.inr (by norm_num)) (by decide)

/-- A successful validation guarantees the three fields have the shapes
the accept path of `handleLocationUpdate` destructures. -/
theorem validate_ok_shape (d : UpdateData) (now : Int)
    (h : validateLocationData d now = .ok) :
    ∃ s la lo, d.name = some (.str s) ∧ d.latitude = some la ∧
      d.longitude = some lo := by
  obtain ⟨nm, la, lo, lu⟩ := d
  rcases nm with _ | v
  · exact absurd h (by simp [validateLocationData])
  rcases v with s | b
  · rcases la with _ | lav
    · by_cases hname : s.length = 0 ∨ 50 < s.length
      · simp [validateLocationData, hname] at h
      · simp [validateLocationData, hname] at h
    rcases lo with _ | lov
    · by_cases hname : s.length = 0 ∨ 50 < s.length
      · simp [validateLocationData, hname] at h
      · by_cases hlat : (jsLtNum lav (-90) || jsGtNum lav 90) = true
        · simp [validateLocationData, hname, hlat] at h
        · simp [validateLocationData, hname, hlat] at h
    exact ⟨s, lav, lov, rfl, rfl, rfl⟩
  · exact absurd h (by simp [validateLocationData])

/-- The validator only produces `valid` or one of its own three codes. -/
theorem validate_code_mem (d : UpdateData) (now : Int) :
    validateLocationData d now = .ok ∨
    validateLocationData d now = .err .INVALID_NAME ∨
    validateLocationData d now = .err .INVALID_LOCATION ∨
    validateLocationData d now = .err .STALE_LOCATION := by
  obtain ⟨nm, la, lo, lu⟩ := d
  rcases nm with _ | v
  · simp [validateLocationData]
  rcases v with s | b
  · by_cases h1 : s.length = 0 ∨ 50 < s.length
    · simp [validateLocationData, h1]
    rcases la with _ | lav
    · simp [validateLocationData, h1]
    by_cases h2 : (jsLtNum lav (-90) || jsGtNum lav 90) = true
    · simp [validateLocationData, h1, h2]
    rcases lo with _ | lov
    · simp [validateLocationData, h1, h2]
    by_cases h3 : (jsLtNum lov (-180) || jsGtNum lov 180) = true
    · simp [validateLocationData, h1, h2, h3]
    rcases lu with _ | t
    · simp [validateLocationData, h1, h2, h3]
    by_cases h4 : 30000 < now - t
    · simp [validateLocationData, h1, h2, h3, h4]
    · simp [validateLocationData, h1, h2, h3, h4]
  · simp [validateLocationData]

/-- C4: a completed append (store connected) leaves the user's collection
with at most 100 entries; starting from a score-sorted collection the
result is score-sorted and every trimmed entry's score is at most every
kept entry's score — the oldest are trimmed first.  Concretely, after 150
appends for one username the unbounded history holds exactly 100 records,
the 100 most recent, newest first. -/
theorem storeUserLocation_history_bound :
    (∀ (rd : RedisState) (u : String) (d : UserData) (now : Int),
      rd.isConnected = true →
      List.Pairwise (fun a b => a.1 ≤ b.1) (mGetD rd.locations u []) →
      ∃ l', mGet (storeUserLocation rd u d now).locations u = some l' ∧
        l'.length ≤ 100 ∧
        List.Pairwise (fun a b => a.1 ≤ b.1) l' ∧
        ∀ x ∈ zAdd (mGetD rd.locations u []) now d, x ∉ l' →
          ∀ y ∈ l', x.1 ≤ y.1) ∧
    (getUserLocationHistory rd150 "u" none none).length = 100 ∧
    (getUserLocationHistory rd150 "u" none none).map (·.lastUpdate) =
      (List.range 100).map (fun i => (149 - (i : Int))) := by
  refine ⟨?_, by decide⟩
  intro rd u d now hconn hpw
  refine ⟨trimToNewest 100 (zAdd (mGetD rd.locations u []) now d), ?_, ?_, ?_, ?_⟩
  · simp [storeUserLocation, hconn, mGet_mSet_self]
  · exact trimToNewest_length _ _
  · exact (pairwise_zAdd now d hpw).drop
  · exact trimToNewest_keeps_greatest 100 (pairwise_zAdd now d hpw)

/-- Witness for C4 at a concrete connected store. -/
theorem storeUserLocation_history_bound_w :
    ∃ l', mGet (storeUserLocation rd3 "alice" (mkU "alice" 7 30) 30).locations
        "alice" = some l' ∧
      l'.length ≤ 100 ∧
      List.Pairwise (fun a b => a.1 ≤ b.1) l' ∧
      ∀ x ∈ zAdd (mGetD rd3.locations "alice" []) 30 (mkU "alice" 7 30),
        x ∉ l' → ∀ y ∈ l', x.1 ≤ y.1 :=
  storeUserLocation_history_bound.1 rd3 "alice" (mkU "alice" 7 30) 30 rfl
    (by simp [rd3, mGetD, mGet])

/-- C3 evaluation at the failing input: both bounds are supplied and
nonzero (`startTime = 5`, `endTime = 10`), "alice"'s only retained record
has score 20 — outside `[5, 10]` — yet it is returned, because the store
call never filters by score; in general the bounds never change the
result, which is always every retained record, newest first. -/
theorem getUserLocationHistory_nofilter_eval :
    getUserLocationHistory rd3 "alice" (some 5) (some 10) = [mkU "alice" 5 20] ∧
    (∀ p ∈ mGetD rd3.locations "alice" [], ¬((5 : Int) ≤ p.1 ∧ p.1 ≤ 10)) ∧
    (∀ (rd : RedisState) (u : String) (s e : Option Int),
      getUserLocationHistory rd u s e =
        getUserLocationHistory rd u none none) ∧
    (∀ (rd : RedisState) (u : String) (s e : Option Int),
      rd.isConnected = true →
      getUserLocationHistory rd u s e =
        ((mGetD rd.locations u []).reverse).map (·.2)) := by
  refine ⟨by decide, by decide, fun rd u s e => rfl, ?_⟩
  intro rd u s e hconn
  simp [getUserLocationHistory, hconn, zrangeRev_full]

/-- C2 evaluation at the failing input: after appends for "alice" at
`t = 1` and `t = 2`, the retained set holds both records in score order,
yet `getLatestUserLocation` returns the coordinates of the record stored
at `t = 1` — the minimum score, not the maximum — merged with the
metadata's `name`/`lastUpdate`. -/
theorem getLatestUserLocation_oldest_eval :
    mGetD rdTwice.locations "alice" [] =
      [(1, mkU "alice" 1 1), (2, mkU "alice" 2 2)] ∧
    getLatestUserLocation rdTwice "alice" =
      some { name := "alice", latitude := .fin 1, longitude := .fin 1,
             lastUpdate := 2 } ∧
    (getLatestUserLocation rdTwice "alice").map (·.latitude) ≠
      some (mkU "alice" 2 2).latitude := by
  decide

/-- C1 evaluation with the store unreachable: alice's and bob's
`location_update`s still succeed (in-memory presence updated, bob's
update broadcast to alice), and a `get_users` request is answered with a
`users_list` — no error — but that list is empty even though two users
are connected in memory: the store-derived list is empty and in-memory
users are only consulted for `connected` flags. -/
theorem sendUsersList_degraded_eval :
    (handleLocationUpdate emptyServer rdDown 1 dAlice 0).2.2 =
      .accepted { name := "alice", latitude := .fin 1, longitude := .fin 2,
                  lastUpdate := 0 } [] ∧
    mGet stAlice.users "alice" =
      some { name := "alice", latitude := .fin 1, longitude := .fin 2,
             lastUpdate := 0 } ∧
    (handleLocationUpdate stAlice rdDown 2 dBob 1000).2.2 =
      .accepted { name := "bob", latitude := .fin 3, longitude := .fin 4,
                  lastUpdate := 1000 } [("alice", 1)] ∧
    stBoth.users.length = 2 ∧
    sendUsersList stBoth rdDown = .usersList [] := by
  decide

/-- Counterexample for C5 as stated: connection 1 gets its username bound
to "alice" by a first accepted update, yet a second accepted update on the
same connection carrying the username "bob" rebinds `ws.username` to
"bob". -/
theorem wsUsername_rebind_cex :
    (handleLocationUpdate emptyServer rdDown 1 dAlice 0).2.2 =
      .accepted { name := "alice", latitude := .fin 1, longitude := .fin 2,
                  lastUpdate := 0 } [] ∧
    mGet stAlice.wsUser 1 = some "alice" ∧
    (handleLocationUpdate stAlice rdDown 1 dBob 0).2.2 =
      .accepted { name := "bob", latitude := .fin 3, longitude := .fin 4,
                  lastUpdate := 0 } [("alice", 1)] ∧
    mGet (handleLocationUpdate stAlice rdDown 1 dBob 0).1.wsUser 1 =
      some "bob" := by
  decide

/-- C5 (amended): every accepted `location_update` (re)binds the
connection's `ws.username` to that update's username — the first accepted
update sets it, and nothing prevents a later accepted update with a
different username from rebinding it. -/
theorem handleLocationUpdate_binds_username
    (st : ServerState) (rd : RedisState) (cid : Nat) (data : UpdateData)
    (now : Int) (st' : ServerState) (rd' : RedisState) (ud : UserData)
    (tg : List (String × Nat))
    (h : handleLocationUpdate st rd cid data now = (st', rd', .accepted ud tg)) :
    mGet st'.wsUser cid = some ud.name := by
  rcases hv : validateLocationData data now with _ | c
  case err =>
    rw [handleLocationUpdate, hv] at h
    simp at h
  obtain ⟨nm, la, lo, hs, hla, hlo⟩ := validate_ok_shape data now hv
  rw [handleLocationUpdate, hv] at h
  simp only [hs, hla, hlo] at h
  split at h
  · simp at h
  split at h
  · simp at h
  simp [Prod.ext_iff] at h
  obtain ⟨hst, hrd, hud, htg⟩ := h
  subst hst
  rw [← hud]
  simp [mGet_mSet_self]

/-- Witness for C5's amended statement: alice's first accepted update on
connection 1 binds `ws.username` to "alice". -/
theorem handleLocationUpdate_binds_username_w :
    mGet stAlice.wsUser 1 =
      some ({ name := "alice", latitude := .fin 1, longitude := .fin 2,
              lastUpdate := 0 } : UserData).name :=
  handleLocationUpdate_binds_username emptyServer rdDown 1 dAlice 0 stAlice
    rdDown { name := "alice", latitude := .fin 1, longitude := .fin 2,
             lastUpdate := 0 } [] (by decide)

/-- C10 evaluation: an update with a valid username and `latitude = NaN`
passes validation (NaN is number-typed and both range comparisons are
false), is accepted, lands in the in-memory presence map and the persisted
history, and is broadcast to the other connection. -/
theorem nanLocation_accepted_eval :
    validateLocationData dNaN 0 = .ok ∧
    (handleLocationUpdate
        (handleLocationUpdate emptyServer rdInit 2 dBob 0).1
        (handleLocationUpdate emptyServer rdInit 2 dBob 0).2.1 1 dNaN 0).2.2 =
      .accepted { name := "alice", latitude := .nan, longitude := .fin 0,
                  lastUpdate := 0 } [("bob", 2)] ∧
    mGet (handleLocationUpdate
        (handleLocationUpdate emptyServer rdInit 2 dBob 0).1
        (handleLocationUpdate emptyServer rdInit 2 dBob 0).2.1 1 dNaN 0).1.users
        "alice" =
      some { name := "alice", latitude := .nan, longitude := .fin 0,
             lastUpdate := 0 } ∧
    mGetD (handleLocationUpdate
        (handleLocationUpdate emptyServer rdInit 2 dBob 0).1
        (handleLocationUpdate emptyServer rdInit 2 dBob 0).2.1 1 dNaN 0).2.1.locations
        "alice" [] =
      [(0, { name := "alice", latitude := .nan, longitude := .fin 0,
             lastUpdate := 0 })] := by
  decide

/-- Counterexample for C6 as stated: after startup loads 100 stored users,
none of whom has a live connection, a valid update for a new username is
rejected `USER_LIMIT_EXCEEDED` even though the number of distinct
connected usernames is 0, not 100 — and the health endpoint reports
`connectedUsers = 100` while 0 usernames are connected. -/
theorem userLimit_unconnected_cex :
    (handleLocationUpdate st100 rdDown 1 dNew 0).2.2 =
      .rejected .USER_LIMIT_EXCEEDED ∧
    connectedUsernameCount st100 = 0 ∧
    healthConnectedUsers st100 = 100 := by
  decide

/-- C6 (amended): a valid, un-rate-limited `location_update` is rejected
`USER_LIMIT_EXCEEDED` exactly when its username is absent from the
in-memory `users` map and that map already has at least 100 entries; the
map counts entries loaded from the store at startup, which add no
connection, so usernames without a live connection can count toward the
limit — and `connectedUsers` in the health reply is the size of that same
map. -/
theorem userLimit_spec :
    (∀ (st : ServerState) (rd : RedisState) (cid : Nat) (d : UpdateData)
        (now : Int) (nm : String),
      d.name = some (.str nm) →
      validateLocationData d now = .ok →
      isRateLimited st nm now = false →
      ((handleLocationUpdate st rd cid d now).2.2 =
          .rejected .USER_LIMIT_EXCEEDED ↔
        mHas st.users nm = false ∧ 100 ≤ st.users.length)) ∧
    (∀ (st : ServerState) (rd : RedisState),
      (loadUsersFromRedis st rd).connections = st.connections) ∧
    (∀ (st : ServerState) (rd : RedisState) (u : UserData),
      u ∈ getAllUsersWithLocations rd →
      mHas (loadUsersFromRedis st rd).users u.name = true) := by
  refine ⟨?_, fun st rd => rfl, ?_⟩
  · intro st rd cid d now nm hnm hok hrl
    obtain ⟨s0, la, lo, hs, hla, hlo⟩ := validate_ok_shape d now hok
    have hs0 : s0 = nm := by
      rw [hnm] at hs
      injection hs with h1
      injection h1 with h2
      exact h2.symm
    subst hs0
    rw [handleLocationUpdate, hok]
    simp only [hs, hla, hlo]
    rw [if_neg (by simp [hrl])]
    by_cases hc : mHas st.users s0 = false ∧ 100 ≤ st.users.length
    · rw [if_pos (by simpa using hc)]
      simpa using hc
    · rw [if_neg (by simpa using hc)]
      simpa using hc
  · intro st rd u hu
    show mHas ((getAllUsersWithLocations rd).foldl
      (fun m x => mSet m x.name x) st.users) u.name = true
    have key : ∀ (us : List UserData) (init : List (String × UserData)) (k : String),
        (mHas init k = true ∨ ∃ x ∈ us, x.name = k) →
        mHas (us.foldl (fun m x => mSet m x.name x) init) k = true := by
      intro us
      induction us with
      | nil =>
        intro init k hk
        rcases hk with hk | ⟨x, hx, _⟩
        · exact hk
        · exact absurd hx (List.not_mem_nil x)
      | cons hd tl ih =>
        intro init k hk
        rcases hk with hk | ⟨x, hx, hxk⟩
        · exact ih _ _ (Or.inl (mHas_mSet _ _ _ _ hk))
        · rcases List.mem_cons.1 hx with rfl | hxtl
          · subst hxk
            refine ih _ _ (Or.inl ?_)
            simp [mHas, mGet_mSet_self]
          · exact ih _ _ (Or.inr ⟨x, hxtl, hxk⟩)
    exact key _ _ _ (Or.inr ⟨u, hu, rfl⟩)

/-- Witness for C6's amended statement: with 100 loaded users and a fresh
rate-limit map, the new user's update is rejected exactly because the map
is full. -/
theorem userLimit_spec_w :
    (handleLocationUpdate st100 rdDown 1 dNew 0).2.2 =
      .rejected .USER_LIMIT_EXCEEDED ↔
    mHas st100.users "newuser" = false ∧ 100 ≤ st100.users.length :=
  userLimit_spec.1 st100 rdDown 1 dNew 0 "newuser" rfl (by decide) (by decide)

/-- C8: rate limiting.  `isRateLimited` holds exactly when a recorded
acceptance exists less than 2000 ms old; with no record the update is
never rejected `RATE_LIMITED`; a valid update is rejected `RATE_LIMITED`
exactly when `isRateLimited` holds; an accepted update records its time;
hence an update accepted while a prior acceptance at `t` is recorded
satisfies `now - t ≥ 2000`; and concretely, an update for "alice" sent
500 ms after her accepted one is rejected `RATE_LIMITED`. -/
theorem rateLimit_spec :
    (∀ (st : ServerState) (nm : String) (now : Int),
      isRateLimited st nm now = true ↔
        ∃ t, mGet st.rateLimit nm = some t ∧ now - t < 2000) ∧
    (∀ (st : ServerState) (rd : RedisState) (cid : Nat) (d : UpdateData)
        (now : Int) (nm : String),
      d.name = some (.str nm) →
      validateLocationData d now = .ok →
      ((handleLocationUpdate st rd cid d now).2.2 = .rejected .RATE_LIMITED ↔
        isRateLimited st nm now = true)) ∧
    (∀ (st : ServerState) (rd : RedisState) (cid : Nat) (d : UpdateData)
        (now : Int) (nm : String),
      d.name = some (.str nm) →
      mGet st.rateLimit nm = none →
      (handleLocationUpdate st rd cid d now).2.2 ≠ .rejected .RATE_LIMITED) ∧
    (∀ (st : ServerState) (rd : RedisState) (cid : Nat) (d : UpdateData)
        (now : Int) (nm : String) (st' : ServerState) (rd' : RedisState)
        (ud : UserData) (tg : List (String × Nat)),
      d.name = some (.str nm) →
      handleLocationUpdate st rd cid d now = (st', rd', .accepted ud tg) →
      mGet st'.rateLimit nm = some now) ∧
    (∀ (st : ServerState) (rd : RedisState) (cid : Nat) (d : UpdateData)
        (now t : Int) (nm : String) (st' : ServerState) (rd' : RedisState)
        (ud : UserData) (tg : List (String × Nat)),
      d.name = some (.str nm) →
      mGet st.rateLimit nm = some t →
      handleLocationUpdate st rd cid d now = (st', rd', .accepted ud tg) →
      2000 ≤ now - t) ∧
    (handleLocationUpdate stAlice rdDown 1 dAlice 500).2.2 =
      .rejected .RATE_LIMITED := by
  refine ⟨?_, ?_, ?_, ?_, ?_, by decide⟩
  · intro st nm now
    unfold isRateLimited
    rcases hg : mGet st.rateLimit nm with _ | t
    · simp
    · simp
  · intro st rd cid d now nm hnm hok
    obtain ⟨s0, la, lo, hs, hla, hlo⟩ := validate_ok_shape d now hok
    have hs0 : s0 = nm := by
      rw [hnm] at hs
      injection hs with h1
      injection h1 with h2
      exact h2.symm
    subst hs0
    rw [handleLocationUpdate, hok]
    simp only [hs, hla, hlo]
    by_cases hrl : isRateLimited st s0 now = true
    · rw [if_pos hrl]
      simpa using hrl
    · rw [if_neg hrl]
      split
      · simpa using hrl
      · simpa using hrl
  · intro st rd cid d now nm hnm hnone
    have hrl : isRateLimited st nm now = false := by
      unfold isRateLimited
      rw [hnone]
    rcases hv : validateLocationData d now with _ | c
    · obtain ⟨s0, la, lo, hs, hla, hlo⟩ := validate_ok_shape d now hv
      have hs0 : s0 = nm := by
        rw [hnm] at hs
        injection hs with h1
        injection h1 with h2
        exact h2.symm
      subst hs0
      rw [handleLocationUpdate, hv]
      simp only [hs, hla, hlo]
      rw [if_neg (by simp [hrl])]
      split
      · simp
      · simp
    · rw [handleLocationUpdate, hv]
      rcases validate_code_mem d now with h0 | h0 | h0 | h0 <;>
        rw [hv] at h0 <;> first
        | (injection h0 with hc; subst hc; simp)
        | simp at h0
  · intro st rd cid d now nm st' rd' ud tg hnm h
    rcases hv : validateLocationData d now with _ | c
    case err =>
      rw [handleLocationUpdate, hv] at h
      simp at h
    obtain ⟨s0, la, lo, hs, hla, hlo⟩ := validate_ok_shape d now hv
    have hs0 : s0 = nm := by
      rw [hnm] at hs
      injection hs with h1
      injection h1 with h2
      exact h2.symm
    subst hs0
    rw [handleLocationUpdate, hv] at h
    simp only [hs, hla, hlo] at h
    split at h
    · simp at h
    split at h
    · simp at h
    simp [Prod.ext_iff] at h
    obtain ⟨hst, hrd, hud, htg⟩ := h
    subst hst
    simp [mGet_mSet_self]
  · intro st rd cid d now t nm st' rd' ud tg hnm hsome h
    rcases hv : validateLocationData d now with _ | c
    case err =>
      rw [handleLocationUpdate, hv] at h
      simp at h
    obtain ⟨s0, la, lo, hs, hla, hlo⟩ := validate_ok_shape d now hv
    have hs0 : s0 = nm := by
      rw [hnm] at hs
      injection hs with h1
      injection h1 with h2
      exact h2.symm
    subst hs0
    rw [handleLocationUpdate, hv] at h
    simp only [hs, hla, hlo] at h
    split at h
    case isTrue hrl => simp at h
    case isFalse hrl =>
      have : ¬ (now - t < 2000) := by
        intro hlt
        exact hrl (by unfold isRateLimited; rw [hsome]; simpa using hlt)
      omega

/-- Witness for C8: a fresh state has no record for "alice", so her update
at `t = 0` is not rejected `RATE_LIMITED`. -/
theorem rateLimit_spec_w :
    (handleLocationUpdate emptyServer rdDown 1 dAlice 0).2.2 ≠
      .rejected .RATE_LIMITED :=
  rateLimit_spec.2.2.1 emptyServer rdDown 1 dAlice 0 "alice" rfl rfl

/-- C9: every rejected `location_update` — validation failure, rate limit,
or user limit — returns an error outcome and leaves the entire server
state and the persisted store unchanged, and a `user_disconnect` rejected
`UNAUTHORIZED_DISCONNECT` leaves the server state unchanged. -/
theorem rejection_no_mutation :
    (∀ (st : ServerState) (rd : RedisState) (cid : Nat) (d : UpdateData)
        (now : Int) (c : ErrCode) (st' : ServerState) (rd' : RedisState),
      handleLocationUpdate st rd cid d now = (st', rd', .rejected c) →
      st' = st ∧ rd' = rd) ∧
    (∀ (st : ServerState) (cid : Nat) (nm : Option String)
        (st' : ServerState),
      handleUserDisconnectRequest st cid nm =
        (st', .rejected .UNAUTHORIZED_DISCONNECT) →
      st' = st) := by
  constructor
  · intro st rd cid d now c st' rd' h
    rcases hv : validateLocationData d now with _ | c0
    · obtain ⟨s0, la, lo, hs, hla, hlo⟩ := validate_ok_shape d now hv
      rw [handleLocationUpdate, hv] at h
      simp only [hs, hla, hlo] at h
      split at h
      · simp [Prod.ext_iff] at h
        exact ⟨h.1.symm, h.2.1.symm⟩
      split at h
      · simp [Prod.ext_iff] at h
        exact ⟨h.1.symm, h.2.1.symm⟩
      · simp [Prod.ext_iff] at h
    · rw [handleLocationUpdate, hv] at h
      simp [Prod.ext_iff] at h
      exact ⟨h.1.symm, h.2.1.symm⟩
  · intro st cid nm st' h
    rcases nm with _ | n
    · rw [handleUserDisconnectRequest] at h
      simp [Prod.ext_iff] at h
    · rw [handleUserDisconnectRequest] at h
      by_cases he : n = ""
      · rw [if_pos he] at h
        simp [Prod.ext_iff] at h
      rw [if_neg he] at h
      by_cases hw : mGet st.wsUser cid = some n
      · rw [if_pos hw] at h
        simp [Prod.ext_iff] at h
      · rw [if_neg hw] at h
        simp [Prod.ext_iff] at h
        exact h.symm

/-- Witness for C9: a rejected update (empty username) and an unauthorized
disconnect on a fresh server both leave the state untouched. -/
theorem rejection_no_mutation_w :
    (emptyServer = emptyServer ∧ rdDown = rdDown) ∧ stAlice = stAlice :=
  ⟨rejection_no_mutation.1 emptyServer rdDown 1
      { name := some (.str ""), latitude := some (.fin 0),
        longitude := some (.fin 0), lastUpdate := none }
      0 .INVALID_NAME emptyServer rdDown (by decide),
    rejection_no_mutation.2 stAlice 2 (some "alice") stAlice (by decide)⟩
